import Mathlib

/-
Shallow embedding of the bookmark-manager application (src/app.js).

The source file contains two application variants separated by a document
marker: the main Firebase-backed variant (AuthManager, FirebaseSyncManager,
BookmarkManager, lines 1-1141) and a localStorage-only variant
(SimpleAuthManager and a second BookmarkManager, lines 1142-1768, called the
"simple" variant below).

Modelling conventions:
  - JS strings are Lean String; character-level operations (toLowerCase,
    includes, the regex replace) work on String.data (List Char).
  - JS timestamps (Date.now(), lastModified, lastLocalChange) are Nat; the
    nondeterministic clock is passed as an explicit argument.
  - JS null is Option.none; JS numeric coercion of null in comparisons
    (x <= null behaves as x <= 0) is Option.getD 0.
  - Generated ids (Date.now + Math.random) are passed as explicit arguments.
  - Methods that mutate fields are state-passing functions returning the new
    state together with the JS return value.
  - Thrown JS errors are Except.error carrying the message string.
-/

namespace BM

/-- JS-style starts-with on character lists: first argument is the haystack,
second the needle.  Mirrors String.prototype.startsWith. -/
def hasStart : List Char → List Char → Bool
  | _, [] => true
  | [], _ :: _ => false
  | a :: as, b :: bs => a == b && hasStart as bs

/-- JS String.prototype.includes: does the needle occur as a contiguous
substring of the haystack?  First argument is the haystack. -/
def hasSub : List Char → List Char → Bool
  | [], needle => needle.isEmpty
  | a :: as, needle => hasStart (a :: as) needle || hasSub as needle

/-- JS toLowerCase, as a character list. -/
def lowerData (s : String) : List Char := s.data.map Char.toLower

/-- Bookmark record: { id, name, url, description } (src/app.js:356-361). -/
structure Bookmark where
  id : String
  name : String
  url : String
  description : String
deriving DecidableEq

/-- Category record: { id, name, color, bookmarks } (src/app.js:316-321). -/
structure Category where
  id : String
  name : String
  color : String
  bookmarks : List Bookmark
deriving DecidableEq

/-- All bookmark ids occurring in a tree, in order. -/
def bookmarkIds (tree : List Category) : List String :=
  (tree.map (fun c => c.bookmarks.map Bookmark.id)).flatten

/-- Is some bookmark with the given id reachable from the tree? -/
def containsBookmarkId (tree : List Category) (bid : String) : Bool :=
  tree.any (fun c => c.bookmarks.any (fun b => b.id == bid))

/-- Every bookmark reachable from the tree lies inside a category of the
tree (the parent-category-exists invariant; structural in this data model). -/
def parentExists (tree : List Category) : Prop :=
  ∀ d ∈ tree, ∀ b ∈ d.bookmarks, ∃ d2 ∈ tree, b ∈ d2.bookmarks

namespace Main

/-- BookmarkManager.addCategory (src/app.js:315-325): appends a fresh
category (the generated id is the `newId` argument) and returns it. -/
def addCategory (tree : List Category) (newId nm color : String) :
    List Category × Category :=
  let category : Category := { id := newId, name := nm, color := color, bookmarks := [] }
  (tree ++ [category], category)

/-- BookmarkManager.updateCategory (src/app.js:327-336): `find` locates the
first category with the given id and mutates it in place; returns whether a
category was found. -/
def updateCategory (tree : List Category) (cid nm color : String) :
    List Category × Bool :=
  match tree with
  | [] => ([], false)
  | c :: cs =>
    if c.id == cid then
      ({ c with name := nm, color := color } :: cs, true)
    else
      let r := updateCategory cs cid nm color
      (c :: r.1, r.2)

/-- BookmarkManager.deleteCategory (src/app.js:338-346): findIndex + splice
removes the first category whose id matches; returns whether one was found. -/
def deleteCategory (tree : List Category) (cid : String) :
    List Category × Bool :=
  match tree with
  | [] => ([], false)
  | c :: cs =>
    if c.id == cid then (cs, true)
    else
      let r := deleteCategory cs cid
      (c :: r.1, r.2)

/-- URL normalization inside BookmarkManager.addBookmark / updateBookmark
(src/app.js:352-354): prepend https:// unless the url already starts with
http:// or https://. -/
def normalizeUrl (url : String) : String :=
  if hasStart url.data "http://".data || hasStart url.data "https://".data then url
  else "https://" ++ url

/-- BookmarkManager.addBookmark (src/app.js:348-367): find the first category
with the given id; if present, push a new bookmark with normalized url and
return it; otherwise return null and leave the tree unchanged.  The JS
`description || ''` is the identity on strings. -/
def addBookmark (tree : List Category) (cid newId nm url desc : String) :
    List Category × Option Bookmark :=
  match tree with
  | [] => ([], none)
  | c :: cs =>
    if c.id == cid then
      let b : Bookmark := { id := newId, name := nm, url := normalizeUrl url, description := desc }
      ({ c with bookmarks := c.bookmarks ++ [b] } :: cs, some b)
    else
      let r := addBookmark cs cid newId nm url desc
      (c :: r.1, r.2)

/-- BookmarkManager.updateBookmark (src/app.js:369-387). -/
def updateBookmark (tree : List Category) (cid bid nm url desc : String) :
    List Category × Bool :=
  match tree with
  | [] => ([], false)
  | c :: cs =>
    if c.id == cid then
      let bs := c.bookmarks.map (fun b =>
        if b.id == bid then { b with name := nm, url := normalizeUrl url, description := desc }
        else b)
      let found := c.bookmarks.any (fun b => b.id == bid)
      (if found then { c with bookmarks := bs } :: cs else c :: cs, found)
    else
      let r := updateBookmark cs cid bid nm url desc
      (c :: r.1, r.2)

/-- BookmarkManager.deleteBookmark (src/app.js:389-400): inside the first
matching category, findIndex + splice removes the first matching bookmark. -/
def removeFirstBookmark (bs : List Bookmark) (bid : String) :
    List Bookmark × Bool :=
  match bs with
  | [] => ([], false)
  | b :: rest =>
    if b.id == bid then (rest, true)
    else
      let r := removeFirstBookmark rest bid
      (b :: r.1, r.2)

/-- BookmarkManager.deleteBookmark (src/app.js:389-400). -/
def deleteBookmark (tree : List Category) (cid bid : String) :
    List Category × Bool :=
  match tree with
  | [] => ([], false)
  | c :: cs =>
    if c.id == cid then
      let r := removeFirstBookmark c.bookmarks bid
      (if r.2 then { c with bookmarks := r.1 } :: cs else c :: cs, r.2)
    else
      let r := deleteBookmark cs cid bid
      (c :: r.1, r.2)

/-- The per-bookmark filter predicate of BookmarkManager.searchBookmarks
(src/app.js:408-412): case-insensitive substring match on name, url, and
(when truthy, i.e. non-empty) description.  `lq` is the lowercased query. -/
def bookmarkMatches (lq : List Char) (b : Bookmark) : Bool :=
  hasSub (lowerData b.name) lq || hasSub (lowerData b.url) lq ||
    (!b.description.data.isEmpty && hasSub (lowerData b.description) lq)

/-- BookmarkManager.searchBookmarks (src/app.js:402-414): a query whose trim
is empty returns the whole tree; otherwise map each category to a copy
restricted to matching bookmarks and keep only non-empty ones. -/
def searchBookmarks (tree : List Category) (query : String) : List Category :=
  if query.data.all Char.isWhitespace then tree
  else
    let lq := lowerData query
    (tree.map (fun c => { c with bookmarks := c.bookmarks.filter (bookmarkMatches lq) })).filter
      (fun c => !c.bookmarks.isEmpty)

end Main

/-- Parsed JSON values, as produced by JSON.parse (no undefined, no
functions).  Numbers are modelled as integers. -/
inductive JsValue where
  | null
  | bool (b : Bool)
  | num (n : Int)
  | str (s : String)
  | arr (elems : List JsValue)
  | obj (fields : List (String × JsValue))

/-- JS truthiness of a parsed JSON value: null, false, 0 and the empty string
are falsy, everything else (including empty arrays and objects) is truthy. -/
def JsValue.truthy : JsValue → Bool
  | .null => false
  | .bool b => b
  | .num n => n != 0
  | .str s => !s.data.isEmpty
  | .arr _ => true
  | .obj _ => true

/-- Is property `k` of value `x` present and truthy?  For an object this
reads the field; for any other non-null value the access yields undefined
(falsy).  Accessing a property of null throws a TypeError in JS; inside
importData that exception is caught and importData returns false, which is
the same observable outcome as a falsy property, so the null case is folded
into `false` here. -/
def truthyProp (x : JsValue) (k : String) : Bool :=
  match x with
  | .obj fields =>
    match fields.lookup k with
    | some v => v.truthy
    | none => false
  | _ => false

namespace Main

/-- BookmarkManager.importData (src/app.js:427-440).  The argument is the
result of JSON.parse on the input text (`none` when parsing throws).  The
tree is replaced exactly when the parsed value is a bare array whose every
element has truthy `name` and `bookmarks` properties; every other input
returns false and leaves the tree unchanged.  The state is kept untyped
(JsValue) because the accepted elements are not validated further. -/
def importData (parsed : Option JsValue) (tree : JsValue) : JsValue × Bool :=
  match parsed with
  | none => (tree, false)
  | some d =>
    match d with
    | .arr xs =>
      if xs.all (fun x => truthyProp x "name" && truthyProp x "bookmarks") then
        (.arr xs, true)
      else (tree, false)
    | _ => (tree, false)

end Main

namespace Simple

/-- Simple-variant BookmarkManager.addBookmark (src/app.js:1339-1352): like
the main variant but with NO url normalization; the url is stored verbatim.
Returns undefined (none) when the category is not found. -/
def addBookmark (tree : List Category) (cid newId nm url desc : String) :
    List Category × Option Bookmark :=
  match tree with
  | [] => ([], none)
  | c :: cs =>
    if c.id == cid then
      let b : Bookmark := { id := newId, name := nm, url := url, description := desc }
      ({ c with bookmarks := c.bookmarks ++ [b] } :: cs, some b)
    else
      let r := addBookmark cs cid newId nm url desc
      (c :: r.1, r.2)

/-- Simple-variant BookmarkManager.importData (src/app.js:1387-1401).  The
caller has already run JSON.parse, so the argument is a parsed value.  A bare
array is wrapped as { categories: [...] }; EVERY other value is stored
wholesale with no validation; the function always returns true (nothing in
the body can throw). -/
def importData (jsonData : JsValue) (_data : JsValue) : JsValue × Bool :=
  match jsonData with
  | .arr xs => (.obj [("categories", .arr xs)], true)
  | v => (v, true)

end Simple

/-- userId derivation shared verbatim by both auth variants
(src/app.js:16-18 and 1157-1159): lower-case the username, then replace every
character outside [a-z0-9] with an underscore, and prefix "user_". -/
def generateUserId (username : String) : String :=
  "user_" ++ String.mk (username.data.map (fun ch =>
    let c := ch.toLower
    if (Char.ofNat 97 ≤ c ∧ c ≤ Char.ofNat 122) ∨ (Char.ofNat 48 ≤ c ∧ c ≤ Char.ofNat 57)
    then c else Char.ofNat 95))

/-- Stored user record { username, passwordHash, createdAt }
(src/app.js:46-50 and 1184-1188). -/
structure UserRecord where
  username : String
  passwordHash : String
  createdAt : Nat
deriving DecidableEq

/-- Firestore-style whole-document set on an association list keyed by
document id: overwrite the existing binding or append a new one. -/
def setDoc (store : List (String × UserRecord)) (k : String) (v : UserRecord) :
    List (String × UserRecord) :=
  if (store.lookup k).isSome then
    store.map (fun p => if p.1 == k then (k, v) else p)
  else store ++ [(k, v)]

namespace Main

/-- State touched by the network-backed AuthManager: the optional remote
users collection (`none` models window.firebaseDB being absent), the
localStorage keys currentUser and userId, and the in-memory currentUser
field. -/
structure AuthEnv where
  db : Option (List (String × UserRecord))
  lsCurrentUser : Option String
  lsUserId : Option String
  currentUser : Option String
deriving DecidableEq

/-- AuthManager.register (src/app.js:20-59).  `hash` abstracts the SHA-256
hex digest (hashPassword); `now` is Date.now().  Validation errors are
thrown before any state change; when firebaseDB is absent the whole
duplicate check and remote write are skipped.  Returns the derived userId. -/
def register (hash : String → String) (env : AuthEnv)
    (username password : String) (now : Nat) : AuthEnv × Except String String :=
  if username.isEmpty || password.isEmpty then
    (env, .error "ユーザー名とパスワードを入力してください")
  else if username.length < 3 then
    (env, .error "ユーザー名は3文字以上で入力してください")
  else if password.length < 4 then
    (env, .error "パスワードは4文字以上で入力してください")
  else
    let userId := generateUserId username
    let passwordHash := hash password
    match env.db with
    | some users =>
      if (users.lookup userId).isSome then
        (env, .error "このユーザー名は既に使用されています")
      else
        ({ env with
            db := some (setDoc users userId
              { username := username, passwordHash := passwordHash, createdAt := now }),
            lsCurrentUser := some username,
            lsUserId := some userId,
            currentUser := some username }, .ok userId)
    | none =>
      ({ env with
          lsCurrentUser := some username,
          lsUserId := some userId,
          currentUser := some username }, .ok userId)

/-- AuthManager.login (src/app.js:61-90).  When firebaseDB is present, a
missing record and a digest mismatch raise the same generic message; when it
is absent the record check and digest comparison are skipped entirely and
login succeeds. -/
def login (hash : String → String) (env : AuthEnv)
    (username password : String) : AuthEnv × Except String String :=
  if username.isEmpty || password.isEmpty then
    (env, .error "ユーザー名とパスワードを入力してください")
  else
    let userId := generateUserId username
    let passwordHash := hash password
    match env.db with
    | some users =>
      match users.lookup userId with
      | none => (env, .error "ユーザー名またはパスワードが正しくありません")
      | some r =>
        if r.passwordHash != passwordHash then
          (env, .error "ユーザー名またはパスワードが正しくありません")
        else
          ({ env with
              lsCurrentUser := some username,
              lsUserId := some userId,
              currentUser := some username }, .ok userId)
    | none =>
      ({ env with
          lsCurrentUser := some username,
          lsUserId := some userId,
          currentUser := some username }, .ok userId)

end Main

namespace Simple

/-- State touched by SimpleAuthManager: localStorage records keyed
"auth_" ++ userId, the currentUserId pointer, and the in-memory field. -/
structure AuthEnv where
  authRecords : List (String × UserRecord)
  lsCurrentUserId : Option String
  currentUser : Option String
deriving DecidableEq

/-- SimpleAuthManager.register (src/app.js:1161-1195): same validation as
the main variant, duplicate check against localStorage, returns true. -/
def register (hash : String → String) (env : AuthEnv)
    (username password : String) (now : Nat) : AuthEnv × Except String Bool :=
  if username.isEmpty || password.isEmpty then
    (env, .error "ユーザー名とパスワードを入力してください")
  else if username.length < 3 then
    (env, .error "ユーザー名は3文字以上で入力してください")
  else if password.length < 4 then
    (env, .error "パスワードは4文字以上で入力してください")
  else
    let userId := generateUserId username
    let passwordHash := hash password
    if (env.authRecords.lookup ("auth_" ++ userId)).isSome then
      (env, .error "このユーザー名は既に使用されています")
    else
      ({ env with
          authRecords := setDoc env.authRecords ("auth_" ++ userId)
            { username := username, passwordHash := passwordHash, createdAt := now },
          lsCurrentUserId := some userId,
          currentUser := some username }, .ok true)

/-- SimpleAuthManager.login (src/app.js:1197-1220): a missing record and a
digest mismatch raise the same generic message. -/
def login (hash : String → String) (env : AuthEnv)
    (username password : String) : AuthEnv × Except String Bool :=
  if username.isEmpty || password.isEmpty then
    (env, .error "ユーザー名とパスワードを入力してください")
  else
    let userId := generateUserId username
    match env.authRecords.lookup ("auth_" ++ userId) with
    | none => (env, .error "ユーザー名またはパスワードが間違っています")
    | some r =>
      if hash password != r.passwordHash then
        (env, .error "ユーザー名またはパスワードが間違っています")
      else
        ({ env with
            lsCurrentUserId := some userId,
            currentUser := some username }, .ok true)

end Simple

/-- FirebaseSyncManager sync-relevant fields (src/app.js:113-120):
lastSyncTime starts as null; `listening` models `unsubscribe` being
non-null. -/
structure SyncState where
  lastSyncTime : Option Nat
  syncEnabled : Bool
  listening : Bool
deriving DecidableEq

/-- FirebaseSyncManager.uploadToCloud (src/app.js:144-159), abstracting the
remote write: `outcome` is `.error ()` when firebaseSetDoc throws (the catch
rethrows) and `.ok t` when it succeeds at time t, in which case lastSyncTime
is set.  The firebaseDB/userId guard is handled by the caller model. -/
def uploadToCloud (st : SyncState) (outcome : Except Unit Nat) :
    Except Unit SyncState :=
  match outcome with
  | .error e => .error e
  | .ok t => .ok { st with lastSyncTime := some t }

/-- FirebaseSyncManager.listenToChanges listener attachment
(src/app.js:179-183): attaches only when firebaseDB is present, no listener
is already attached, and a userId exists. -/
def attachListener (st : SyncState) (hasDB hasUser : Bool) : SyncState :=
  if hasDB && !st.listening && hasUser then { st with listening := true } else st

/-- FirebaseSyncManager.enableSync (src/app.js:126-142): guard on
firebaseDB/userId; set syncEnabled, attempt one upload, attach listener and
return true on success; on a thrown upload reset syncEnabled and return
false. -/
def enableSync (st : SyncState) (hasDB hasUser : Bool)
    (outcome : Except Unit Nat) : SyncState × Bool :=
  if !hasDB || !hasUser then (st, false)
  else
    let st1 := { st with syncEnabled := true }
    match uploadToCloud st1 outcome with
    | .error _ => ({ st1 with syncEnabled := false }, false)
    | .ok st2 => (attachListener st2 hasDB hasUser, true)

/-- A remote bookmarks document { categories, lastModified }
(src/app.js:149-152); lastModified is optional because the handler reads it
as `data.lastModified || 0`. -/
structure CloudDoc where
  categories : List Category
  lastModified : Option Nat
deriving DecidableEq

/-- Local state read and written by the snapshot handler: the in-memory
tree, the persisted copy (localStorage bookmarkData key), and the
lastLocalChange timestamp (localStorage, parsed with
parseInt(x || '0')). -/
structure LocalData where
  categories : List Category
  stored : Option (List Category)
  lastLocalChange : Option Nat
deriving DecidableEq

/-- Spec-side restatement of search (§4.2 of the spec): exactly the
categories having at least one matching bookmark, each restricted to its
matching bookmarks.  Compared with Main.searchBookmarks in the theorems. -/
def searchSpec (tree : List Category) (query : String) : List Category :=
  tree.filterMap (fun c =>
    let ms := c.bookmarks.filter (Main.bookmarkMatches (lowerData query))
    if ms.isEmpty then none else some { c with bookmarks := ms })

/-- searchBookmarks as a method call on the store state: it reads the tree
and returns a view, leaving the stored tree untouched. -/
def searchCall (s : List Category) (q : String) : List Category × List Category :=
  (s, Main.searchBookmarks s q)

/-- The three messages thrown by the input-validation prefix shared by both
register implementations (src/app.js:21-31 and 1162-1172); the spec calls
these ValidationError. -/
def isValidationError {α : Type} : Except String α → Bool
  | .error m =>
    m == "ユーザー名とパスワードを入力してください" ||
      m == "ユーザー名は3文字以上で入力してください" ||
      m == "パスワードは4文字以上で入力してください"
  | .ok _ => false

/-- A concrete stand-in for the SHA-256 digest used when instantiating
theorems at specific inputs. -/
def idHash : String → String := fun s => s

/-- The session establishment common to the success paths of the main
AuthManager register and login (src/app.js:53-56 and 84-87): store the
username and derived userId in localStorage and in the manager field. -/
def sessionEnv (env : Main.AuthEnv) (u : String) : Main.AuthEnv :=
  { env with
      lsCurrentUser := some u
      lsUserId := some (generateUserId u)
      currentUser := some u }

/-- The remote-change notification handler installed by
FirebaseSyncManager.listenToChanges (src/app.js:183-202).  `doc` is `none`
when the snapshot does not exist.  cloudTime <= lastSyncTime (null coercing
to 0) discards the notification as an echo; otherwise the remote tree
overwrites the local tree exactly when cloudTime > lastLocalChange, in which
case saveData rewrites local persistence and stamps lastLocalChange with the
current time `now` (the fire-and-forget re-upload inside saveData is
asynchronous and not part of the handler step). -/
def onSnapshotHandler (lastSyncTime : Option Nat) (loc : LocalData)
    (doc : Option CloudDoc) (now : Nat) : LocalData :=
  match doc with
  | none => loc
  | some d =>
    let cloudTime := d.lastModified.getD 0
    if cloudTime ≤ lastSyncTime.getD 0 then loc
    else
      let localTime := loc.lastLocalChange.getD 0
      if localTime < cloudTime then
        { categories := d.categories,
          stored := some d.categories,
          lastLocalChange := some now }
      else loc

/-
Theorems.
-/

/-- Claim C1: while syncing (lastSyncTime = some T, lastLocalChange recorded as
some L), a remote-change notification carrying lastModified m is applied iff
m > T and m > L; in that case the remote categories replace the local tree
and local persistence is rewritten, and in every other case (including a
non-existing document) the local state is left unchanged. -/
theorem c1_remote_notification_lww (T L : Nat) (loc : LocalData)
    (cats : List Category) (m now : Nat)
    (hL : loc.lastLocalChange = some L) :
    onSnapshotHandler (some T) loc none now = loc ∧
    ((T < m ∧ L < m) →
      onSnapshotHandler (some T) loc (some ⟨cats, some m⟩) now =
        ⟨cats, some cats, some now⟩) ∧
    (¬(T < m ∧ L < m) →
      onSnapshotHandler (some T) loc (some ⟨cats, some m⟩) now = loc) := by
  refine ⟨rfl, ?_, ?_⟩
  · rintro ⟨hT, hLm⟩
    simp only [onSnapshotHandler, Option.getD_some, hL]
    rw [if_neg (by omega), if_pos (by omega)]
  · intro h
    simp only [onSnapshotHandler, Option.getD_some, hL]
    by_cases hT : m ≤ T
    · rw [if_pos hT]
    · rw [if_neg hT, if_neg (by omega)]

/-- Witness for C1: with lastSyncTime 5 and lastLocalChange 3, a
notification stamped 10 overwrites the tree and persistence, and a
non-existing document leaves the state unchanged. -/
theorem c1_witness :
    onSnapshotHandler (some 5) ⟨[], none, some 3⟩ none 20 = ⟨[], none, some 3⟩ ∧
    onSnapshotHandler (some 5) ⟨[], none, some 3⟩
        (some ⟨[⟨"c1", "hobby", "#4CAF50", []⟩], some 10⟩) 20 =
      ⟨[⟨"c1", "hobby", "#4CAF50", []⟩], some [⟨"c1", "hobby", "#4CAF50", []⟩], some 20⟩ := by
  refine ⟨(c1_remote_notification_lww 5 3 ⟨[], none, some 3⟩ [] 0 20 rfl).1, ?_⟩
  exact (c1_remote_notification_lww 5 3 ⟨[], none, some 3⟩
    [⟨"c1", "hobby", "#4CAF50", []⟩] 10 20 rfl).2.1 ⟨by omega, by omega⟩

/-- Claim C9: from the Disabled state (syncEnabled false, no listener), with
firebaseDB and a userId present, enableSync returns false and is back in
the Disabled state when the initial upload throws, and returns true with
syncing enabled, lastSyncTime recorded and the listener attached when the
upload succeeds. -/
theorem c9_enable_sync (st : SyncState) (outcome : Except Unit Nat)
    (hEn : st.syncEnabled = false) (hLis : st.listening = false) :
    (∀ e, outcome = .error e → enableSync st true true outcome = (st, false)) ∧
    (∀ t, outcome = .ok t →
      enableSync st true true outcome =
        ({ st with syncEnabled := true, lastSyncTime := some t,
                   listening := true }, true)) := by
  constructor
  · rintro e rfl
    cases st
    simp_all [enableSync, uploadToCloud]
  · rintro t rfl
    cases st
    simp_all [enableSync, uploadToCloud, attachListener]

/-- Witness for C9: from a fresh Disabled state, a throwing upload leaves
the state Disabled with result false, and an upload succeeding at time 7
yields result true with the listener attached. -/
theorem c9_witness :
    enableSync ⟨none, false, false⟩ true true (.error ()) =
      (⟨none, false, false⟩, false) ∧
    enableSync ⟨none, false, false⟩ true true (.ok 7) =
      (⟨some 7, true, true⟩, true) := by
  constructor
  · exact (c9_enable_sync ⟨none, false, false⟩ (.error ()) rfl rfl).1 () rfl
  · exact (c9_enable_sync ⟨none, false, false⟩ (.ok 7) rfl rfl).2 7 rfl

/-- Claim C6: in both auth variants, register fails with one of the three
validation messages whenever the username is shorter than 3 characters, the
password shorter than 4, or either is empty, and in every such failure the
environment (user records and session state) is unchanged. -/
theorem c6_register_validation (hash : String → String) (env : Main.AuthEnv)
    (senv : Simple.AuthEnv) (u p : String) (now : Nat)
    (h : u.isEmpty = true ∨ p.isEmpty = true ∨ u.length < 3 ∨ p.length < 4) :
    ((Main.register hash env u p now).1 = env ∧
      isValidationError (Main.register hash env u p now).2 = true) ∧
    ((Simple.register hash senv u p now).1 = senv ∧
      isValidationError (Simple.register hash senv u p now).2 = true) := by
  unfold Main.register Simple.register
  by_cases hu : u.isEmpty
  · simp [hu, isValidationError]
  · by_cases hp : p.isEmpty
    · simp [hu, hp, isValidationError]
    · by_cases h3 : u.length < 3
      · simp [hu, hp, h3, isValidationError]
      · by_cases h4 : p.length < 4
        · simp [hu, hp, h3, h4, isValidationError]
        · exfalso
          rcases h with h | h | h | h <;> simp_all

/-- Witness for C6: register("ab", "pw1") fails with a validation message in
both variants while leaving the state unchanged. -/
theorem c6_witness :
    ((Main.register idHash ⟨none, none, none, none⟩ "ab" "pw1" 0).1 =
        ⟨none, none, none, none⟩ ∧
      isValidationError (Main.register idHash ⟨none, none, none, none⟩ "ab" "pw1" 0).2 = true) ∧
    ((Simple.register idHash ⟨[], none, none⟩ "ab" "pw1" 0).1 = ⟨[], none, none⟩ ∧
      isValidationError (Simple.register idHash ⟨[], none, none⟩ "ab" "pw1" 0).2 = true) :=
  c6_register_validation idHash ⟨none, none, none, none⟩ ⟨[], none, none⟩
    "ab" "pw1" 0 (Or.inr (Or.inr (Or.inl (by decide))))

/-- Claim C7: with valid credentials, when a record for the derived userId already
exists (in the remote users collection for the main variant, in localStorage
for the simple variant), register fails with the conflict message and leaves
the environment, hence the existing record, unchanged. -/
theorem c7_register_conflict (hash : String → String) (env : Main.AuthEnv)
    (users : List (String × UserRecord)) (senv : Simple.AuthEnv)
    (u p : String) (now : Nat)
    (hdb : env.db = some users)
    (hu : u.isEmpty = false) (hp : p.isEmpty = false)
    (h3 : ¬ u.length < 3) (h4 : ¬ p.length < 4)
    (hex : (users.lookup (generateUserId u)).isSome = true)
    (hex2 : ((senv.authRecords.lookup ("auth_" ++ generateUserId u)).isSome = true)) :
    Main.register hash env u p now = (env, .error "このユーザー名は既に使用されています") ∧
    Simple.register hash senv u p now = (senv, .error "このユーザー名は既に使用されています") := by
  constructor
  · simp [Main.register, hu, hp, h3, h4, hdb, hex]
  · simp [Simple.register, hu, hp, h3, h4, hex2]

/-- Witness for C7: registering "abc" again when user_abc is already on
record fails with the conflict message in both variants. -/
theorem c7_witness :
    Main.register idHash
        ⟨some [("user_abc", ⟨"abc", "pass", 0⟩)], none, none, none⟩ "abc" "pass" 1 =
      (⟨some [("user_abc", ⟨"abc", "pass", 0⟩)], none, none, none⟩,
        .error "このユーザー名は既に使用されています") ∧
    Simple.register idHash ⟨[("auth_user_abc", ⟨"abc", "pass", 0⟩)], none, none⟩ "abc" "pass" 1 =
      (⟨[("auth_user_abc", ⟨"abc", "pass", 0⟩)], none, none⟩,
        .error "このユーザー名は既に使用されています") :=
  c7_register_conflict idHash
    ⟨some [("user_abc", ⟨"abc", "pass", 0⟩)], none, none, none⟩
    [("user_abc", ⟨"abc", "pass", 0⟩)]
    ⟨[("auth_user_abc", ⟨"abc", "pass", 0⟩)], none, none⟩
    "abc" "pass" 1 rfl (by decide) (by decide) (by decide) (by decide)
    (by decide) (by decide)

/-- Claim C8: in both auth variants, login with non-empty credentials fails with
one and the same generic message whether no record exists for the derived
userId or the stored digest differs from the supplied password digest, so
the two causes are indistinguishable from the returned value. -/
theorem c8_login_generic_error (hash : String → String) (env : Main.AuthEnv)
    (users : List (String × UserRecord)) (senv : Simple.AuthEnv) (u p : String)
    (hdb : env.db = some users)
    (hu : u.isEmpty = false) (hp : p.isEmpty = false) :
    ((users.lookup (generateUserId u) = none →
        Main.login hash env u p =
          (env, .error "ユーザー名またはパスワードが正しくありません")) ∧
      (∀ r, users.lookup (generateUserId u) = some r →
        r.passwordHash ≠ hash p →
        Main.login hash env u p =
          (env, .error "ユーザー名またはパスワードが正しくありません"))) ∧
    ((senv.authRecords.lookup ("auth_" ++ generateUserId u) = none →
        Simple.login hash senv u p =
          (senv, .error "ユーザー名またはパスワードが間違っています")) ∧
      (∀ r, senv.authRecords.lookup ("auth_" ++ generateUserId u) = some r →
        hash p ≠ r.passwordHash →
        Simple.login hash senv u p =
          (senv, .error "ユーザー名またはパスワードが間違っています"))) := by
  refine ⟨⟨?_, ?_⟩, ⟨?_, ?_⟩⟩
  · intro hnone
    simp [Main.login, hu, hp, hdb, hnone]
  · intro r hr hne
    simp [Main.login, hu, hp, hdb, hr, bne_iff_ne, hne]
  · intro hnone
    simp [Simple.login, hu, hp, hnone]
  · intro r hr hne
    simp [Simple.login, hu, hp, hr, bne_iff_ne, hne]

/-- Witness for C8: a wrong password for an existing user and a login for a
nonexistent user produce the identical error value in the main variant, and
likewise in the simple variant. -/
theorem c8_witness :
    Main.login idHash ⟨some [("user_abc", ⟨"abc", "secret", 0⟩)], none, none, none⟩
        "abc" "wrong" =
      (⟨some [("user_abc", ⟨"abc", "secret", 0⟩)], none, none, none⟩,
        .error "ユーザー名またはパスワードが正しくありません") ∧
    Main.login idHash ⟨some [], none, none, none⟩ "ghost" "pw" =
      (⟨some [], none, none, none⟩,
        .error "ユーザー名またはパスワードが正しくありません") ∧
    Simple.login idHash ⟨[("auth_user_abc", ⟨"abc", "secret", 0⟩)], none, none⟩
        "abc" "wrong" =
      (⟨[("auth_user_abc", ⟨"abc", "secret", 0⟩)], none, none⟩,
        .error "ユーザー名またはパスワードが間違っています") ∧
    Simple.login idHash ⟨[], none, none⟩ "ghost" "pw" =
      (⟨[], none, none⟩, .error "ユーザー名またはパスワードが間違っています") := by
  refine ⟨?_, ?_, ?_, ?_⟩
  · exact (c8_login_generic_error idHash
      ⟨some [("user_abc", ⟨"abc", "secret", 0⟩)], none, none, none⟩
      [("user_abc", ⟨"abc", "secret", 0⟩)] ⟨[], none, none⟩ "abc" "wrong"
      rfl (by decide) (by decide)).1.2 ⟨"abc", "secret", 0⟩ (by decide) (by decide)
  · exact (c8_login_generic_error idHash ⟨some [], none, none, none⟩ []
      ⟨[], none, none⟩ "ghost" "pw" rfl (by decide) (by decide)).1.1 (by decide)
  · exact (c8_login_generic_error idHash ⟨some [], none, none, none⟩ []
      ⟨[("auth_user_abc", ⟨"abc", "secret", 0⟩)], none, none⟩ "abc" "wrong"
      rfl (by decide) (by decide)).2.2 ⟨"abc", "secret", 0⟩ (by decide) (by decide)
  · exact (c8_login_generic_error idHash ⟨some [], none, none, none⟩ []
      ⟨[], none, none⟩ "ghost" "pw" rfl (by decide) (by decide)).2.1 (by decide)

/-- Claim C10 counterexample: with window.firebaseDB absent and the non-empty
credentials ("ab", "pw1"), register does NOT succeed — the length validation
still runs and throws — refuting the claim that register succeeds for every
non-empty username and password when the remote handle is absent. -/
theorem c10_counterexample :
    Main.register idHash ⟨none, none, none, none⟩ "ab" "pw1" 0 =
      (⟨none, none, none, none⟩, .error "ユーザー名は3文字以上で入力してください") := rfl

/-- Claim C10 amended: with window.firebaseDB absent and non-empty credentials,
login succeeds and returns the derived userId, and its result is independent
of the digest function (no record is consulted, no digest compared);
register likewise skips the duplicate-user check and the remote write and
its result is digest-independent, but it still enforces the length
validation, so it succeeds only when the username has at least 3 characters
and the password at least 4. -/
theorem c10_no_db_auth (hash1 hash2 : String → String) (env : Main.AuthEnv)
    (u p : String) (now : Nat)
    (hdb : env.db = none) (hu : u.isEmpty = false) (hp : p.isEmpty = false) :
    Main.login hash1 env u p = (sessionEnv env u, .ok (generateUserId u)) ∧
    Main.login hash1 env u p = Main.login hash2 env u p ∧
    (¬ u.length < 3 → ¬ p.length < 4 →
      Main.register hash1 env u p now = (sessionEnv env u, .ok (generateUserId u)) ∧
      Main.register hash1 env u p now = Main.register hash2 env u p now) := by
  refine ⟨?_, ?_, ?_⟩
  · simp [Main.login, sessionEnv, hu, hp, hdb]
  · simp [Main.login, hu, hp, hdb]
  · intro h3 h4
    constructor <;> simp [Main.register, sessionEnv, hu, hp, h3, h4, hdb]

/-- Witness for C10 amended: without a remote handle, login("abc", "zzz")
succeeds with userId user_abc even though no record exists, and
register("abc", "pass") succeeds with no duplicate check. -/
theorem c10_witness :
    Main.login idHash ⟨none, none, none, none⟩ "abc" "zzz" =
      (⟨none, some "abc", some "user_abc", some "abc"⟩, .ok "user_abc") ∧
    Main.register idHash ⟨none, none, none, none⟩ "abc" "pass" 0 =
      (⟨none, some "abc", some "user_abc", some "abc"⟩, .ok "user_abc") := by
  have h := c10_no_db_auth idHash idHash ⟨none, none, none, none⟩ "abc" "zzz" 0
    rfl (by decide) (by decide)
  have h2 := c10_no_db_auth idHash idHash ⟨none, none, none, none⟩ "abc" "pass" 0
    rfl (by decide) (by decide)
  exact ⟨h.1.trans rfl, ((h2.2.2 (by decide) (by decide)).1).trans rfl⟩

/-- Claim C2 counterexample: the main importData rejects the {categories: [...]}
object shape that the claim says must be accepted: on the parsed input
{"categories": []} it returns false and leaves the tree unchanged instead
of replacing it and returning true. -/
theorem c2_counterexample :
    Main.importData (some (JsValue.obj [("categories", JsValue.arr [])]))
        (JsValue.arr [JsValue.str "old"]) =
      (JsValue.arr [JsValue.str "old"], false) := rfl

/-- Claim C2 amended: the main importData replaces the tree and returns true
exactly when the input text parses to a bare JSON array whose every element
has truthy name and bookmarks properties; every other input — including the
{categories: [...]} object shape — returns false without raising and leaves
the tree unchanged.  The simple-variant importData performs no validation at
all: it returns true on every parsed input, wrapping a bare array as
{categories: [...]} and otherwise storing the value wholesale. -/
theorem c2_import_validation (parsed : Option JsValue) (tree : JsValue) :
    ((Main.importData parsed tree).2 = true ↔
      ∃ xs, parsed = some (.arr xs) ∧
        xs.all (fun x => truthyProp x "name" && truthyProp x "bookmarks") = true) ∧
    (∀ xs, parsed = some (.arr xs) → (Main.importData parsed tree).2 = true →
      (Main.importData parsed tree).1 = .arr xs) ∧
    ((Main.importData parsed tree).2 = false →
      (Main.importData parsed tree).1 = tree) ∧
    (∀ j d, (Simple.importData j d).2 = true) ∧
    (∀ xs d, Simple.importData (.arr xs) d = (.obj [("categories", .arr xs)], true)) := by
  refine ⟨?_, ?_, ?_, ?_, ?_⟩
  · constructor
    · intro ht
      match parsed with
      | none => simp [Main.importData] at ht
      | some d =>
        match d with
        | .arr xs =>
          refine ⟨xs, rfl, ?_⟩
          by_cases hv : xs.all (fun x => truthyProp x "name" && truthyProp x "bookmarks")
          · exact hv
          · simp [Main.importData, hv] at ht
        | .null => simp [Main.importData] at ht
        | .bool b => simp [Main.importData] at ht
        | .num n => simp [Main.importData] at ht
        | .str s => simp [Main.importData] at ht
        | .obj fs => simp [Main.importData] at ht
    · rintro ⟨xs, rfl, hv⟩
      simp [Main.importData, hv]
  · rintro xs rfl ht
    by_cases hv : xs.all (fun x => truthyProp x "name" && truthyProp x "bookmarks")
    · simp [Main.importData, hv]
    · simp [Main.importData, hv] at ht
  · intro hf
    match parsed with
    | none => rfl
    | some d =>
      match d with
      | .arr xs =>
        by_cases hv : xs.all (fun x => truthyProp x "name" && truthyProp x "bookmarks")
        · simp [Main.importData, hv] at hf
        · simp [Main.importData, hv]
      | .null => rfl
      | .bool b => rfl
      | .num n => rfl
      | .str s => rfl
      | .obj fs => rfl
  · intro j d
    match j with
    | .arr xs => rfl
    | .null => rfl
    | .bool b => rfl
    | .num n => rfl
    | .str s => rfl
    | .obj fs => rfl
  · intro xs d
    rfl

/-- Witness for C2 amended: a legacy bare array with one well-shaped element
is accepted and replaces the tree, and a malformed input (a bare string)
is rejected leaving the tree unchanged. -/
theorem c2_witness :
    (Main.importData
        (some (JsValue.arr [JsValue.obj
          [("name", JsValue.str "work"), ("bookmarks", JsValue.arr [])]]))
        JsValue.null).2 = true ∧
    (Main.importData (some (JsValue.str "junk")) JsValue.null).1 = JsValue.null := by
  constructor
  · exact (c2_import_validation
      (some (JsValue.arr [JsValue.obj
        [("name", JsValue.str "work"), ("bookmarks", JsValue.arr [])]]))
      JsValue.null).1.mpr
      ⟨[JsValue.obj [("name", JsValue.str "work"), ("bookmarks", JsValue.arr [])]],
        rfl, rfl⟩
  · exact (c2_import_validation (some (JsValue.str "junk")) JsValue.null).2.2.1 rfl

/-- Claim C3 counterexample: the simple-variant addBookmark performs no url
normalization: with an existing category "cat1", the input url "example.com"
is stored and returned verbatim instead of as "https://example.com". -/
theorem c3_counterexample :
    ((Simple.addBookmark [⟨"cat1", "Work", "#ffffff", []⟩]
        "cat1" "id1" "Example" "example.com" "").2.map Bookmark.url =
      some "example.com") ∧ "example.com" ≠ "https://example.com" := by
  exact ⟨rfl, by decide⟩

/-- Claim C3 amended: the main BookmarkManager.addBookmark behaves as the claim
states — when no category has the given id the result is absent and the
tree unchanged, and otherwise the returned bookmark carries the input url
when it starts with http:// or https:// and https:// prepended to it
otherwise — while the simple-variant addBookmark stores the input url
verbatim without any normalization (and agrees on the absent case). -/
theorem c3_add_bookmark_url (tree : List Category) (cid newId nm url desc : String) :
    (tree.all (fun c => !(c.id == cid)) = true →
      Main.addBookmark tree cid newId nm url desc = (tree, none) ∧
      Simple.addBookmark tree cid newId nm url desc = (tree, none)) ∧
    (∀ b, (Main.addBookmark tree cid newId nm url desc).2 = some b →
      b.url = Main.normalizeUrl url ∧ b.name = nm ∧ b.id = newId ∧
        b.description = desc) ∧
    ((hasStart url.data "http://".data || hasStart url.data "https://".data) = true →
      Main.normalizeUrl url = url) ∧
    ((hasStart url.data "http://".data || hasStart url.data "https://".data) = false →
      Main.normalizeUrl url = "https://" ++ url) ∧
    (∀ b, (Simple.addBookmark tree cid newId nm url desc).2 = some b →
      b.url = url ∧ b.name = nm ∧ b.id = newId ∧ b.description = desc) := by
  refine ⟨?_, ?_, ?_, ?_, ?_⟩
  · intro hall
    induction tree with
    | nil => exact ⟨rfl, rfl⟩
    | cons c cs ih =>
      simp only [List.all_cons, Bool.and_eq_true, Bool.not_eq_true'] at hall
      have ih2 := ih (by simpa using hall.2)
      simp only [Main.addBookmark, Simple.addBookmark, hall.1]
      constructor
      · simpa [Prod.ext_iff] using ih2.1
      · simpa [Prod.ext_iff] using ih2.2
  · intro b hb
    induction tree with
    | nil => simp [Main.addBookmark] at hb
    | cons c cs ih =>
      by_cases hc : c.id == cid
      · simp only [Main.addBookmark, hc, if_pos] at hb
        cases hb
        exact ⟨rfl, rfl, rfl, rfl⟩
      · simp only [Main.addBookmark, hc] at hb
        simp only [Bool.false_eq_true, if_false] at hb
        exact ih hb
  · intro h
    simp [Main.normalizeUrl, h]
  · intro h
    simp [Main.normalizeUrl, h]
  · intro b hb
    induction tree with
    | nil => simp [Simple.addBookmark] at hb
    | cons c cs ih =>
      by_cases hc : c.id == cid
      · simp only [Simple.addBookmark, hc, if_pos] at hb
        cases hb
        exact ⟨rfl, rfl, rfl, rfl⟩
      · simp only [Simple.addBookmark, hc] at hb
        simp only [Bool.false_eq_true, if_false] at hb
        exact ih hb

/-- Witness for C3 amended: adding "example.com" under an existing category
yields url "https://example.com" in the main variant, and a lookup against a
tree without the category returns absent leaving the tree unchanged. -/
theorem c3_witness :
    ((Main.addBookmark [⟨"cat1", "Work", "#ffffff", []⟩]
        "cat1" "id1" "Example" "example.com" "").2.map Bookmark.url =
      some "https://example.com") ∧
    Main.addBookmark [⟨"cat1", "Work", "#ffffff", []⟩]
        "nope" "id1" "Example" "example.com" "" =
      ([⟨"cat1", "Work", "#ffffff", []⟩], none) := by
  constructor
  · rfl
  · exact ((c3_add_bookmark_url [⟨"cat1", "Work", "#ffffff", []⟩]
      "nope" "id1" "Example" "example.com" "").1 (by decide)).1

/-- Map-then-filter of searchBookmarks equals the filterMap form of the
spec sentence (each category restricted to its matching bookmarks, keeping
exactly those with at least one match). -/
theorem search_map_filter_eq (m : Bookmark → Bool) (tree : List Category) :
    ((tree.map (fun c => { c with bookmarks := c.bookmarks.filter m })).filter
      (fun c => !c.bookmarks.isEmpty)) =
    tree.filterMap (fun c =>
      let ms := c.bookmarks.filter m
      if ms.isEmpty then none else some { c with bookmarks := ms }) := by
  induction tree with
  | nil => rfl
  | cons c cs ih =>
    simp only [List.map_cons, List.filter_cons, List.filterMap_cons]
    by_cases h : (c.bookmarks.filter m).isEmpty
    · simp only [h, Bool.not_true, Bool.false_eq_true, if_false, ite_false]
      exact ih
    · simp only [Bool.not_eq_true] at h
      simp only [h, Bool.not_false, if_true, ite_true, Bool.false_eq_true, if_false]
      rw [ih]

/-- Claim C5: search returns the full tree on an empty or whitespace-only query;
otherwise it returns exactly the categories having at least one matching
bookmark, each restricted to its matching bookmarks; matching is a
substring test on the lowercased name, url and description against the
lowercased query (hence case-insensitive: two queries with equal lowercase
forms give the same result); and the call leaves the stored tree
unchanged. -/
theorem c5_search (tree : List Category) (q : String) :
    (q.data.all Char.isWhitespace = true → Main.searchBookmarks tree q = tree) ∧
    (q.data.all Char.isWhitespace = false →
      Main.searchBookmarks tree q = searchSpec tree q) ∧
    (∀ q2, lowerData q = lowerData q2 →
      q.data.all Char.isWhitespace = false →
      q2.data.all Char.isWhitespace = false →
      Main.searchBookmarks tree q = Main.searchBookmarks tree q2) ∧
    (∀ b lq, lq ≠ [] →
      Main.bookmarkMatches lq b =
        (hasSub (lowerData b.name) lq || hasSub (lowerData b.url) lq ||
          hasSub (lowerData b.description) lq)) ∧
    (searchCall tree q).1 = tree := by
  refine ⟨?_, ?_, ?_, ?_, rfl⟩
  · intro h
    simp [Main.searchBookmarks, h]
  · intro h
    simp only [Main.searchBookmarks, h, Bool.false_eq_true, if_false, searchSpec]
    exact search_map_filter_eq _ tree
  · intro q2 he h1 h2
    simp only [Main.searchBookmarks, h1, h2, Bool.false_eq_true, if_false, he]
  · intro b lq hne
    by_cases hd : b.description.data.isEmpty
    · have hdata : b.description.data = [] := by simpa using hd
      have hlq : lq.isEmpty = false := by simpa using hne
      simp [Main.bookmarkMatches, hd, lowerData, hdata, hasSub, hlq]
    · simp [Main.bookmarkMatches, hd]

/-- Witness for C5: a whitespace-only query returns the stored tree
unchanged, and a non-whitespace query agrees with the spec-side filterMap
formulation, on a concrete one-category tree. -/
theorem c5_witness :
    Main.searchBookmarks
        [⟨"c1", "Hobby", "#4CAF50", [⟨"b1", "YouTube", "https://www.youtube.com", "video"⟩]⟩]
        "  " =
      [⟨"c1", "Hobby", "#4CAF50", [⟨"b1", "YouTube", "https://www.youtube.com", "video"⟩]⟩] ∧
    Main.searchBookmarks
        [⟨"c1", "Hobby", "#4CAF50", [⟨"b1", "YouTube", "https://www.youtube.com", "video"⟩]⟩]
        "TUBE" =
      searchSpec
        [⟨"c1", "Hobby", "#4CAF50", [⟨"b1", "YouTube", "https://www.youtube.com", "video"⟩]⟩]
        "TUBE" := by
  constructor
  · exact (c5_search
      [⟨"c1", "Hobby", "#4CAF50", [⟨"b1", "YouTube", "https://www.youtube.com", "video"⟩]⟩]
      "  ").1 (by decide)
  · exact (c5_search
      [⟨"c1", "Hobby", "#4CAF50", [⟨"b1", "YouTube", "https://www.youtube.com", "video"⟩]⟩]
      "TUBE").2.1 (by decide)

/-- Unfolding of bookmarkIds on a cons cell. -/
theorem bookmarkIds_cons (c : Category) (cs : List Category) :
    bookmarkIds (c :: cs) = c.bookmarks.map Bookmark.id ++ bookmarkIds cs := rfl

/-- Membership in bookmarkIds is reachability of a bookmark with that id. -/
theorem mem_bookmarkIds (tree : List Category) (bid : String) :
    bid ∈ bookmarkIds tree ↔ ∃ c ∈ tree, ∃ b ∈ c.bookmarks, b.id = bid := by
  simp only [bookmarkIds, List.mem_flatten, List.mem_map]
  constructor
  · rintro ⟨l, ⟨c, hc, rfl⟩, hl⟩
    rcases List.mem_map.mp hl with ⟨b, hb, rfl⟩
    exact ⟨c, hc, b, hb, rfl⟩
  · rintro ⟨c, hc, b, hb, rfl⟩
    exact ⟨c.bookmarks.map Bookmark.id, ⟨c, hc, rfl⟩, List.mem_map.mpr ⟨b, hb, rfl⟩⟩

/-- The Bool reachability test agrees with membership in bookmarkIds. -/
theorem containsBookmarkId_iff (tree : List Category) (bid : String) :
    containsBookmarkId tree bid = true ↔ bid ∈ bookmarkIds tree := by
  rw [mem_bookmarkIds]
  simp only [containsBookmarkId, List.any_eq_true, beq_iff_eq]

/-- The parent-category-exists property holds of every tree: bookmarks only
exist inside categories in this data model. -/
theorem parentExists_all (l : List Category) : parentExists l :=
  fun d hd _b hb => ⟨d, hd, hb⟩

/-- deleteCategory under the unique-ids invariants: it reports true, removes
exactly the categories with the given id (all other categories and their
bookmarks kept verbatim, in order), and no bookmark of the deleted category
remains reachable. -/
theorem deleteCategory_filter_spec (tree : List Category) (cid : String)
    (c : Category)
    (hnc : (tree.map Category.id).Nodup)
    (hnb : (bookmarkIds tree).Nodup)
    (hc : c ∈ tree) (hcid : c.id = cid) :
    (Main.deleteCategory tree cid).2 = true ∧
    (Main.deleteCategory tree cid).1 = tree.filter (fun d => !(d.id == cid)) ∧
    ∀ b ∈ c.bookmarks, containsBookmarkId (Main.deleteCategory tree cid).1 b.id = false := by
  induction tree with
  | nil => cases hc
  | cons c1 cs ih =>
    rw [List.map_cons, List.nodup_cons] at hnc
    rw [bookmarkIds_cons, List.nodup_append] at hnb
    by_cases h1 : c1.id = cid
    · have hceq : c = c1 := by
        rcases List.mem_cons.mp hc with h | h
        · exact h
        · exact absurd (List.mem_map.mpr ⟨c, h, by rw [hcid, h1]⟩) hnc.1
      subst hceq
      have hfil : cs.filter (fun d => !(d.id == cid)) = cs := by
        apply List.filter_eq_self.mpr
        intro d hd
        have : d.id ≠ cid := by
          intro hdc
          exact hnc.1 (List.mem_map.mpr ⟨d, hd, by rw [hdc, h1]⟩)
        simpa using this
      refine ⟨?_, ?_, ?_⟩
      · simp [Main.deleteCategory, h1]
      · simp only [Main.deleteCategory, beq_iff_eq, h1, if_true, List.filter_cons]
        simp [hfil]
      · intro b hb
        simp only [Main.deleteCategory, beq_iff_eq, h1, if_true]
        rw [Bool.eq_false_iff]
        intro htrue
        have hmem := (containsBookmarkId_iff cs b.id).mp htrue
        exact hnb.2.2 (List.mem_map.mpr ⟨b, hb, rfl⟩) hmem
    · have hcin : c ∈ cs := by
        rcases List.mem_cons.mp hc with h | h
        · exact absurd (by rw [← h, hcid]) (fun hx => h1 hx)
        · exact h
      have ihh := ih hnc.2 hnb.2.1 hcin
      have hbeq : (c1.id == cid) = false := beq_eq_false_iff_ne.mpr h1
      refine ⟨?_, ?_, ?_⟩
      · simpa [Main.deleteCategory, hbeq] using ihh.1
      · simp only [Main.deleteCategory, hbeq, Bool.false_eq_true, if_false,
          List.filter_cons, Bool.not_false, if_true]
        rw [ihh.2.1]
      · intro b hb
        simp only [Main.deleteCategory, hbeq, Bool.false_eq_true, if_false]
        simp only [containsBookmarkId, List.any_cons, Bool.or_eq_false_iff]
        constructor
        · rw [Bool.eq_false_iff]
          intro htrue
          rcases List.any_eq_true.mp htrue with ⟨b2, hb2, hbeq⟩
          have hbid : b.id ∈ bookmarkIds cs :=
            (mem_bookmarkIds cs b.id).mpr ⟨c, hcin, b, hb, rfl⟩
          exact hnb.2.2 (List.mem_map.mpr ⟨b2, hb2, beq_iff_eq.mp hbeq⟩) hbid
        · exact ihh.2.2 b hb

/-- Claim C4: under the unique-ids invariant from the data model, deleting an
existing category succeeds, keeps every other category (with its bookmarks)
verbatim, and leaves no bookmark of the deleted category reachable from any
subsequent read; moreover every Bookmark Store operation preserves the
parent-category-exists invariant (bookmarks only exist nested inside a
category of the tree). -/
theorem c4_delete_category_cascade (tree : List Category) (cid : String)
    (c : Category)
    (hnc : (tree.map Category.id).Nodup)
    (hnb : (bookmarkIds tree).Nodup)
    (hc : c ∈ tree) (hcid : c.id = cid) :
    (Main.deleteCategory tree cid).2 = true ∧
    (Main.deleteCategory tree cid).1 = tree.filter (fun d => !(d.id == cid)) ∧
    (∀ b ∈ c.bookmarks,
      containsBookmarkId (Main.deleteCategory tree cid).1 b.id = false) ∧
    (∀ t i n col, parentExists (Main.addCategory t i n col).1) ∧
    (∀ t i n col, parentExists (Main.updateCategory t i n col).1) ∧
    (∀ t i, parentExists (Main.deleteCategory t i).1) ∧
    (∀ t a x y z w, parentExists (Main.addBookmark t a x y z w).1) ∧
    (∀ t a x y z w, parentExists (Main.updateBookmark t a x y z w).1) ∧
    (∀ t a x, parentExists (Main.deleteBookmark t a x).1) := by
  have h := deleteCategory_filter_spec tree cid c hnc hnb hc hcid
  exact ⟨h.1, h.2.1, h.2.2,
    fun t i n col => parentExists_all _,
    fun t i n col => parentExists_all _,
    fun t i => parentExists_all _,
    fun t a x y z w => parentExists_all _,
    fun t a x y z w => parentExists_all _,
    fun t a x => parentExists_all _⟩

/-- Witness for C4: deleting category "a" from a two-category tree returns
true, keeps only category "c", and the bookmark "b1" formerly under "a" is
no longer reachable. -/
theorem c4_witness :
    (Main.deleteCategory
        [⟨"a", "A", "#1", [⟨"b1", "N", "u", "d"⟩]⟩, ⟨"c", "C", "#2", [⟨"b2", "M", "v", "e"⟩]⟩]
        "a").2 = true ∧
    (Main.deleteCategory
        [⟨"a", "A", "#1", [⟨"b1", "N", "u", "d"⟩]⟩, ⟨"c", "C", "#2", [⟨"b2", "M", "v", "e"⟩]⟩]
        "a").1 =
      [⟨"c", "C", "#2", [⟨"b2", "M", "v", "e"⟩]⟩] ∧
    containsBookmarkId
      (Main.deleteCategory
        [⟨"a", "A", "#1", [⟨"b1", "N", "u", "d"⟩]⟩, ⟨"c", "C", "#2", [⟨"b2", "M", "v", "e"⟩]⟩]
        "a").1 "b1" = false := by
  have h := c4_delete_category_cascade
    [⟨"a", "A", "#1", [⟨"b1", "N", "u", "d"⟩]⟩, ⟨"c", "C", "#2", [⟨"b2", "M", "v", "e"⟩]⟩]
    "a" ⟨"a", "A", "#1", [⟨"b1", "N", "u", "d"⟩]⟩
    (by decide) (by decide) (by decide) rfl
  exact ⟨h.1, h.2.1.trans rfl, h.2.2.1 ⟨"b1", "N", "u", "d"⟩ (by decide)⟩

end BM
